import Mathlib

/-
Shallow embedding of the cert-manager CertificateRequest lifecycle
reconciler ("requestmanager" controller) and of the X509Subject
conversion wrapper, together with theorems settling the specification
claims about them.

The requestmanager controller's own Go source is not part of this
source snapshot; only its table-driven test, TestProcessItem, is
(embedded in src/go.mod).  The reconciler below is therefore modelled
from the specification (spec.md sections 4.1-4.5), with every point on
which the specification and the repository's test file disagree
resolved in favour of the test file, which is part of the sources.
In particular TestProcessItem ("delete the owned CertificateRequest and
create a new one if existing one does not have the annotation" /
"... contains invalid annotation") shows that requests whose revision
annotations are missing, empty or non-numeric are DELETED, while
requests whose revision parses to a number other than the target are
ignored ("should ignore requests that do not have a revision of
'current + 1' and create a new one").
-/

namespace CertManager

/-- Byte strings (secret payloads, CSR bytes) are modelled as lists of
natural numbers; the reconciler treats them opaquely, handing them to
the crypto environment. -/
abbrev Bytes := List Nat

/-- Association-list lookup used for secret data maps and Kubernetes
object annotations: the first entry with the given key wins. -/
def assocLookup {α : Type} : List (String × α) → String → Option α
  | [], _ => none
  | (k, v) :: rest, key => if k = key then some v else assocLookup rest key

/-- The well-known key under which a TLS secret stores the private key
(corev1.TLSPrivateKeyKey). -/
def tlsPrivateKeyKey : String := "tls.key"

/-- Annotation key recording which private-key secret a
CertificateRequest's CSR was generated against
(cmapi.CRPrivateKeyAnnotationKey). -/
def pkSecretNameAnnKey : String := "cert-manager.io/private-key-secret-name"

/-- Annotation key recording the revision a CertificateRequest targets
(cmapi.CertificateRequestRevisionAnnotationKey). -/
def revisionAnnKey : String := "cert-manager.io/certificate-revision"

/-- Numeric value of a digit list, most significant digit first. -/
def digitsVal (cs : List Char) : Nat :=
  cs.foldl (fun a c => a * 10 + (c.toNat - 48)) 0

/-- Parse a non-empty, all-digit character list as a natural number;
anything else fails. -/
def parseDecimalNat (cs : List Char) : Option Nat :=
  if cs ≠ [] ∧ cs.all (fun c => c.isDigit) = true then some (digitsVal cs)
  else none

/-- Modelled from the spec: the revision-annotation parser of the
missing requestmanager controller (Go strconv.ParseInt, base 10): an
optional sign followed by at least one digit; the empty string and any
non-numeric string fail to parse. -/
def parseRevisionString (s : String) : Option Int :=
  match s.toList with
  | '-' :: rest => (parseDecimalNat rest).map fun n => -(n : Int)
  | '+' :: rest => (parseDecimalNat rest).map fun n => (n : Int)
  | cs => (parseDecimalNat cs).map fun n => (n : Int)

/-- The desired-certificate fields a CSR is synthesized from and
matched against (spec section 3: common name, SAN list, key
algorithm). -/
structure Subject where
  commonName : String
  dnsNames : List String
  keyAlgorithm : String
deriving DecidableEq, Repr

/-- One entry of a Certificate's status.conditions list. -/
structure CertificateCondition where
  condType : String
  condStatus : String
deriving DecidableEq, Repr

/-- The Certificate resource: desired state plus the status fields the
reconciler reads (spec section 3). -/
structure Certificate where
  ns : String
  name : String
  uid : String
  subject : Subject
  statusRevision : Option Nat
  nextPrivateKeySecretName : Option String
  conditions : List CertificateCondition
deriving DecidableEq, Repr

/-- A Certificate has the Issuing condition set to True. -/
def hasIssuingCondition (crt : Certificate) : Bool :=
  crt.conditions.any fun c =>
    decide (c.condType = "Issuing" ∧ c.condStatus = "True")

/-- A Kubernetes secret holding opaque byte data. -/
structure Secret where
  ns : String
  name : String
  data : List (String × Bytes)
deriving DecidableEq, Repr

/-- The CertificateRequest child resource: owner linkage, annotations
and CSR bytes (spec section 3). -/
structure CertificateRequest where
  ns : String
  name : String
  ownerUID : String
  annotations : List (String × String)
  csr : Bytes
deriving DecidableEq, Repr

/-- The object store contents a single reconciliation pass reads. -/
structure ClusterState where
  certificates : List Certificate
  secrets : List Secret
  requests : List CertificateRequest
deriving DecidableEq, Repr

/-- The cryptographic environment the reconciler is parameterised
over: private-key decoding, public-key derivation, CSR parsing and CSR
encoding.  Private and public keys are identified by natural numbers;
the reconciler only ever compares them for equality. -/
structure CryptoEnv where
  decodePrivateKey : Bytes → Option Nat
  publicKeyOf : Nat → Nat
  parseCSR : Bytes → Option (Subject × Nat)
  encodeCSR : Subject → Nat → Option Bytes

/-- Classification of one candidate CertificateRequest against the
target (spec section 4.3), refined by the test file: requests with a
missing/empty/non-numeric revision are a separate class that is
deleted, unlike parseable wrong revisions which are ignored. -/
inductive Classification
  | invalidRevision
  | wrongRevision
  | wrongKey
  | malformedCSR
  | keyMismatch
  | specMismatch
  | valid
deriving DecidableEq, Repr

/-- The target a candidate request is matched against. -/
structure MatchTarget where
  targetRevision : Nat
  secretName : String
  desiredSubject : Subject
  publicKey : Nat
deriving DecidableEq, Repr

/-- Modelled from the spec: the Request Matcher of the missing
requestmanager controller (spec section 4.3), with the revision
handling fixed by TestProcessItem: an unparseable revision annotation
is `invalidRevision` (deleted), a parseable revision different from
the target is `wrongRevision` (ignored). -/
def classifyRequest (env : CryptoEnv) (t : MatchTarget)
    (req : CertificateRequest) : Classification :=
  match parseRevisionString ((assocLookup req.annotations revisionAnnKey).getD "") with
  | none => .invalidRevision
  | some r =>
    if r ≠ (t.targetRevision : Int) then .wrongRevision
    else if assocLookup req.annotations pkSecretNameAnnKey ≠ some t.secretName then
      .wrongKey
    else
      match env.parseCSR req.csr with
      | none => .malformedCSR
      | some (subj, pub) =>
        if pub ≠ t.publicKey then .keyMismatch
        else if subj ≠ t.desiredSubject then .specMismatch
        else .valid

/-- A classification whose downstream action is deletion: everything
except the ignored wrong-revision requests and the valid ones. -/
def deletedByCleanup : Classification → Bool
  | .wrongRevision => false
  | .valid => false
  | _ => true

/-- A classification counting as a valid request for the target. -/
def isValidClass : Classification → Bool
  | .valid => true
  | _ => false

/-- Modelled from the spec: the Revision Allocator of the missing
requestmanager controller (spec section 4.2): target revision is the
current status revision plus one, where an absent revision counts as
zero. -/
def nextRevision (crt : Certificate) : Nat :=
  match crt.statusRevision with
  | none => 1
  | some r => r + 1

/-- The match target a pass computes for a Certificate once the gates
are open. -/
def certTarget (env : CryptoEnv) (crt : Certificate) (secretName : String)
    (sk : Nat) : MatchTarget :=
  { targetRevision := nextRevision crt
    secretName := secretName
    desiredSubject := crt.subject
    publicKey := env.publicKeyOf sk }

/-- A store mutation issued by a pass. -/
inductive Action
  | deleteRequest (ns name : String)
  | createRequest (req : CertificateRequest)
deriving DecidableEq, Repr

/-- Whether an action is a create. -/
def Action.isCreate : Action → Bool
  | .createRequest _ => true
  | _ => false

/-- Find a Certificate by namespace and name. -/
def findCertificate (s : ClusterState) (ns name : String) :
    Option Certificate :=
  s.certificates.find? fun c => decide (c.ns = ns ∧ c.name = name)

/-- Find a Secret by namespace and name. -/
def findSecret (s : ClusterState) (ns name : String) : Option Secret :=
  s.secrets.find? fun c => decide (c.ns = ns ∧ c.name = name)

/-- The CertificateRequests owned by a Certificate: same namespace,
owner reference pointing at the Certificate's UID. -/
def ownedRequests (s : ClusterState) (crt : Certificate) :
    List CertificateRequest :=
  s.requests.filter fun r => decide (r.ns = crt.ns ∧ r.ownerUID = crt.uid)

/-- Modelled from the spec: the Request Synthesizer of the missing
requestmanager controller (spec section 4.4): a fresh request named
with the Certificate's base name plus the injected suffix, carrying
the private-key-secret-name and revision annotations and the owner
linkage. -/
def newRequestFor (crt : Certificate) (suffix : String)
    (secretName : String) (csr : Bytes) : CertificateRequest :=
  { ns := crt.ns
    name := crt.name ++ "-" ++ suffix
    ownerUID := crt.uid
    annotations :=
      [(pkSecretNameAnnKey, secretName),
       (revisionAnnKey, Nat.repr (nextRevision crt))]
    csr := csr }

/-- The delete actions of the cleanup step (spec section 4.5 step 7):
one delete per owned request whose classification is slated for
deletion. -/
def cleanupActions (env : CryptoEnv) (t : MatchTarget)
    (owned : List CertificateRequest) : List Action :=
  (owned.filter fun r => deletedByCleanup (classifyRequest env t r)).map
    fun r => Action.deleteRequest r.ns r.name

/-- Modelled from the spec: steps 5-8 of the missing requestmanager
controller's per-pass state machine (spec section 4.5), run once the
gates are open: classify the owned requests, delete the invalid ones,
and create one replacement unless a valid request remains. -/
def reconcileRequests (env : CryptoEnv) (suffix : String)
    (crt : Certificate) (secretName : String) (sk : Nat)
    (owned : List CertificateRequest) : Except String (List Action) :=
  if owned.any fun r =>
      isValidClass (classifyRequest env (certTarget env crt secretName sk) r) then
    .ok (cleanupActions env (certTarget env crt secretName sk) owned)
  else
    match env.encodeCSR crt.subject sk with
    | none => .error "failed to encode CSR for new CertificateRequest"
    | some csr =>
      .ok (cleanupActions env (certTarget env crt secretName sk) owned ++
        [Action.createRequest (newRequestFor crt suffix secretName csr)])

/-- Split a character list at every slash, like Go's strings.Split:
the result always has one more part than there are slashes. -/
def splitSlash : List Char → List (List Char)
  | [] => [[]]
  | c :: rest =>
    if c = '/' then [] :: splitSlash rest
    else
      match splitSlash rest with
      | [] => [[c]]
      | h :: t => (c :: h) :: t

/-- Split a store key into namespace and name
(cache.SplitMetaNamespaceKey): no slash means cluster-scoped (empty
namespace), one slash splits, more than one slash is malformed. -/
def splitKey (key : String) : Option (String × String) :=
  match splitSlash key.toList with
  | [name] => some ("", name.asString)
  | [ns, name] => some (ns.asString, name.asString)
  | _ => none

/-- Modelled from the spec: the entry point ProcessItem of the missing
requestmanager controller (spec section 4.5): gate on key shape,
Certificate existence, the Issuing condition and the availability of a
decodable next private key, then reconcile the owned requests. -/
def processItem (env : CryptoEnv) (suffix : String) (s : ClusterState)
    (key : String) : Except String (List Action) :=
  match splitKey key with
  | none => .ok []
  | some (ns, nm) =>
    match findCertificate s ns nm with
    | none => .ok []
    | some crt =>
      if hasIssuingCondition crt then
        match crt.nextPrivateKeySecretName with
        | none => .ok []
        | some sn =>
          match findSecret s crt.ns sn with
          | none => .ok []
          | some sec =>
            match (assocLookup sec.data tlsPrivateKeyKey).bind
                env.decodePrivateKey with
            | none => .ok []
            | some sk =>
              reconcileRequests env suffix crt sn sk (ownedRequests s crt)
      else .ok []

/-- Apply one action to the store: deletes remove every request with
the given coordinates, creates append. -/
def applyAction (s : ClusterState) (a : Action) : ClusterState :=
  match a with
  | .deleteRequest ns name =>
    { s with requests :=
        s.requests.filter fun r => !decide (r.ns = ns ∧ r.name = name) }
  | .createRequest req => { s with requests := s.requests ++ [req] }

/-- Apply a list of actions left to right. -/
def applyActions (s : ClusterState) (acts : List Action) : ClusterState :=
  acts.foldl applyAction s

/-! Concrete data used to instantiate the theorems: a small crypto
environment and cluster states mirroring the scenarios of
TestProcessItem. -/

/-- A concrete crypto environment: a private-key blob is a singleton
list holding the key, the public key adds 100, and a CSR is the pair
of a tag 7 and the embedded public key, always decoding to the fixed
test subject. -/
def testEnv : CryptoEnv :=
  { decodePrivateKey := fun b => match b with | [k] => some k | _ => none
    publicKeyOf := fun k => k + 100
    parseCSR := fun b => match b with
      | [7, pub] =>
        some ({ commonName := "test", dnsNames := [], keyAlgorithm := "RSA" }, pub)
      | _ => none
    encodeCSR := fun _ sk => some [7, sk + 100] }

/-- The subject all concrete Certificates below request. -/
def subjTest : Subject :=
  { commonName := "test", dnsNames := [], keyAlgorithm := "RSA" }

/-- Scenario A Certificate: Issuing, next key secret "s", no prior
revision. -/
def certA : Certificate :=
  { ns := "n", name := "c", uid := "u", subject := subjTest,
    statusRevision := none, nextPrivateKeySecretName := some "s",
    conditions := [{ condType := "Issuing", condStatus := "True" }] }

/-- The key secret, decoding to private key 5 (public key 105). -/
def secretS : Secret := { ns := "n", name := "s", data := [("tls.key", [5])] }

/-- Scenario A state: no requests exist yet. -/
def stateA : ClusterState :=
  { certificates := [certA], secrets := [secretS], requests := [] }

/-- Scenario B request: owned, but its revision annotation is the
empty string. -/
def reqEmptyRev : CertificateRequest :=
  { ns := "n", name := "c0", ownerUID := "u",
    annotations := [(pkSecretNameAnnKey, "s"), (revisionAnnKey, "")],
    csr := [7, 105] }

/-- Scenario B state: one owned request with an unparseable revision
annotation. -/
def stateB : ClusterState :=
  { certificates := [certA], secrets := [secretS], requests := [reqEmptyRev] }

/-- A Certificate already at revision 5 (so the target is 6). -/
def cert5 : Certificate :=
  { ns := "n", name := "c", uid := "u", subject := subjTest,
    statusRevision := some 5, nextPrivateKeySecretName := some "s",
    conditions := [{ condType := "Issuing", condStatus := "True" }] }

/-- An owned request at the target revision 6 whose CSR embeds a
public key (999) different from the current one (105). -/
def reqBad : CertificateRequest :=
  { ns := "n", name := "bad", ownerUID := "u",
    annotations := [(pkSecretNameAnnKey, "s"), (revisionAnnKey, "6")],
    csr := [7, 999] }

/-- An owned request at the target revision 6 matching the current
key and subject: classified Valid. -/
def reqGood : CertificateRequest :=
  { ns := "n", name := "good", ownerUID := "u",
    annotations := [(pkSecretNameAnnKey, "s"), (revisionAnnKey, "6")],
    csr := [7, 105] }

/-- A second Valid request for revision 6 under a different name. -/
def reqGood2 : CertificateRequest :=
  { ns := "n", name := "good2", ownerUID := "u",
    annotations := [(pkSecretNameAnnKey, "s"), (revisionAnnKey, "6")],
    csr := [7, 105] }

/-- State with a key-mismatched request and a Valid request, both at
the target revision. -/
def state56 : ClusterState :=
  { certificates := [cert5], secrets := [secretS], requests := [reqBad, reqGood] }

/-- State with a single key-mismatched request at the target
revision. -/
def state5Bad : ClusterState :=
  { certificates := [cert5], secrets := [secretS], requests := [reqBad] }

/-- Scenario D state: two Valid requests for the same target
revision. -/
def state5DoubleGood : ClusterState :=
  { certificates := [cert5], secrets := [secretS],
    requests := [reqGood, reqGood2] }

/-- State with two owned requests whose revisions (3 and 4) parse but
differ from the target revision 1. -/
def stateWrongRev : ClusterState :=
  { certificates := [certA], secrets := [secretS],
    requests :=
      [{ ns := "n", name := "w3", ownerUID := "u",
         annotations := [(pkSecretNameAnnKey, "s"), (revisionAnnKey, "3")],
         csr := [7, 105] },
       { ns := "n", name := "w4", ownerUID := "u",
         annotations := [(pkSecretNameAnnKey, "s"), (revisionAnnKey, "4")],
         csr := [7, 105] }] }

/-! Helper lemmas about the reconciler. -/

/-- When every gate is open, a pass is exactly the request
reconciliation over the owned requests. -/
lemma processItem_open (env : CryptoEnv) (suffix : String) (s : ClusterState)
    (key ns nm sn : String) (crt : Certificate) (sec : Secret) (sk : Nat)
    (hkey : splitKey key = some (ns, nm))
    (hcrt : findCertificate s ns nm = some crt)
    (hiss : hasIssuingCondition crt = true)
    (hnext : crt.nextPrivateKeySecretName = some sn)
    (hsec : findSecret s crt.ns sn = some sec)
    (hdec : (assocLookup sec.data tlsPrivateKeyKey).bind env.decodePrivateKey
      = some sk) :
    processItem env suffix s key =
      reconcileRequests env suffix crt sn sk (ownedRequests s crt) := by
  simp [processItem, hkey, hcrt, hiss, hnext, hsec, hdec]

/-- Membership in the cleanup actions. -/
lemma mem_cleanupActions {env : CryptoEnv} {t : MatchTarget}
    {owned : List CertificateRequest} {a : Action} :
    a ∈ cleanupActions env t owned ↔
      ∃ r, r ∈ owned ∧ deletedByCleanup (classifyRequest env t r) = true ∧
        a = Action.deleteRequest r.ns r.name := by
  simp only [cleanupActions, List.mem_map, List.mem_filter]
  constructor
  · rintro ⟨r, ⟨hr, hd⟩, hEq⟩
    exact ⟨r, hr, hd, hEq.symm⟩
  · rintro ⟨r, hr, hd, hEq⟩
    exact ⟨r, ⟨hr, hd⟩, hEq.symm⟩

/-- The revision annotation of a synthesized request is the decimal
encoding of the Certificate's next revision. -/
lemma assocLookup_newRequest_rev (crt : Certificate) (suffix sn : String)
    (csr : Bytes) :
    assocLookup (newRequestFor crt suffix sn csr).annotations revisionAnnKey =
      some (Nat.repr (nextRevision crt)) := by
  have h : ¬(pkSecretNameAnnKey = revisionAnnKey) := by decide
  simp [newRequestFor, assocLookup, h]

/-- Membership in the owned requests of a Certificate. -/
lemma mem_ownedRequests {s : ClusterState} {crt : Certificate}
    {r : CertificateRequest} :
    r ∈ ownedRequests s crt ↔
      r ∈ s.requests ∧ r.ns = crt.ns ∧ r.ownerUID = crt.uid := by
  simp [ownedRequests]

/-- C2: for every Certificate whose Issuing condition is false or
absent, or whose nextPrivateKeySecretName is unset, or whose
referenced key secret is missing, empty, or undecodable, the pass
performs no create and no delete action on CertificateRequests,
regardless of what request objects already exist. -/
theorem processItem_gate_closed_no_actions
    (env : CryptoEnv) (suffix : String) (s : ClusterState)
    (key ns nm : String) (crt : Certificate)
    (hkey : splitKey key = some (ns, nm))
    (hcrt : findCertificate s ns nm = some crt)
    (h : hasIssuingCondition crt = false
      ∨ crt.nextPrivateKeySecretName = none
      ∨ ∀ sn, crt.nextPrivateKeySecretName = some sn →
          (findSecret s crt.ns sn = none
           ∨ ∀ sec, findSecret s crt.ns sn = some sec →
               (assocLookup sec.data tlsPrivateKeyKey).bind env.decodePrivateKey
                 = none)) :
    processItem env suffix s key = Except.ok [] := by
  rcases h with h | h | h
  · simp [processItem, hkey, hcrt, h]
  · cases hIss : hasIssuingCondition crt
    · simp [processItem, hkey, hcrt, hIss]
    · simp [processItem, hkey, hcrt, hIss, h]
  · cases hIss : hasIssuingCondition crt
    · simp [processItem, hkey, hcrt, hIss]
    · cases hnx : crt.nextPrivateKeySecretName with
      | none => simp [processItem, hkey, hcrt, hIss, hnx]
      | some sn =>
        rcases h sn hnx with h2 | h2
        · simp [processItem, hkey, hcrt, hIss, hnx, h2]
        · cases hfs : findSecret s crt.ns sn with
          | none => simp [processItem, hkey, hcrt, hIss, hnx, hfs]
          | some sec =>
            simp [processItem, hkey, hcrt, hIss, hnx, hfs, h2 sec hfs]

/-- Witness for C2: a Certificate with the Issuing condition set to
False and an existing owned request is left entirely alone. -/
theorem processItem_gate_closed_no_actions_witness :
    processItem testEnv "r"
      { certificates :=
          [{ ns := "n", name := "c", uid := "u", subject := subjTest,
             statusRevision := none, nextPrivateKeySecretName := some "s",
             conditions := [{ condType := "Issuing", condStatus := "False" }] }],
        secrets := [secretS], requests := [reqGood] } "n/c" = Except.ok [] :=
  processItem_gate_closed_no_actions testEnv "r" _ "n/c" "n" "c" _
    rfl rfl (Or.inl (by decide))

/-- C8: for every lookup key that is empty or cannot be parsed into
namespace/name, and for every key referencing a Certificate that does
not exist, the entry point returns success and performs no store
mutation (given the store invariant that certificate names are
non-empty). -/
theorem processItem_missing_or_malformed_key_noop
    (env : CryptoEnv) (suffix : String) (s : ClusterState) (key : String)
    (hnames : ∀ c ∈ s.certificates, c.name ≠ "")
    (h : key = "" ∨ splitKey key = none ∨
      ∃ ns nm, splitKey key = some (ns, nm) ∧ findCertificate s ns nm = none) :
    processItem env suffix s key = Except.ok [] := by
  rcases h with h | h | ⟨ns, nm, h1, h2⟩
  · subst h
    have hk : splitKey "" = some ("", "") := rfl
    have hf : findCertificate s "" "" = none := by
      unfold findCertificate
      refine List.find?_eq_none.2 fun c hc hp => ?_
      exact hnames c hc (of_decide_eq_true hp).2
    simp [processItem, hk, hf]
  · simp [processItem, h]
  · simp [processItem, h1, h2]

/-- Witness for C8: the empty key is a silent no-op on a store holding
one Certificate. -/
theorem processItem_missing_or_malformed_key_noop_witness :
    processItem testEnv "r" stateA "" = Except.ok [] :=
  processItem_missing_or_malformed_key_noop testEnv "r" stateA ""
    (by decide) (Or.inl rfl)

/-- C1: for every Certificate passing the issuance and key gates, the
pass targets revision currentRevision + 1: any CertificateRequest it
creates carries the decimal revision annotation of the next revision,
which is "1" when status.revision is absent or zero and the decimal
encoding of r + 1 when status.revision = r. -/
theorem processItem_targets_next_revision
    (env : CryptoEnv) (suffix : String) (s : ClusterState)
    (key ns nm sn : String) (crt : Certificate) (sec : Secret) (sk : Nat)
    (hkey : splitKey key = some (ns, nm))
    (hcrt : findCertificate s ns nm = some crt)
    (hiss : hasIssuingCondition crt = true)
    (hnext : crt.nextPrivateKeySecretName = some sn)
    (hsec : findSecret s crt.ns sn = some sec)
    (hdec : (assocLookup sec.data tlsPrivateKeyKey).bind env.decodePrivateKey
      = some sk)
    (as : List Action) (req : CertificateRequest)
    (hrun : processItem env suffix s key = Except.ok as)
    (hmem : Action.createRequest req ∈ as) :
    assocLookup req.annotations revisionAnnKey
        = some (Nat.repr (nextRevision crt)) ∧
    ((crt.statusRevision = none ∨ crt.statusRevision = some 0) →
      assocLookup req.annotations revisionAnnKey = some "1") ∧
    (∀ r : Nat, crt.statusRevision = some r →
      assocLookup req.annotations revisionAnnKey = some (Nat.repr (r + 1))) := by
  rw [processItem_open env suffix s key ns nm sn crt sec sk
    hkey hcrt hiss hnext hsec hdec] at hrun
  unfold reconcileRequests at hrun
  split at hrun
  · injection hrun with h
    subst h
    exfalso
    rcases mem_cleanupActions.1 hmem with ⟨r, _, _, hEq⟩
    exact Action.noConfusion hEq
  · split at hrun
    · exact Except.noConfusion hrun
    · next csr henc =>
      injection hrun with h
      subst h
      have hreq : req = newRequestFor crt suffix sn csr := by
        rcases List.mem_append.1 hmem with hm | hm
        · exfalso
          rcases mem_cleanupActions.1 hm with ⟨r, _, _, hEq⟩
          exact Action.noConfusion hEq
        · have := List.mem_singleton.1 hm
          injection this
      subst hreq
      refine ⟨assocLookup_newRequest_rev crt suffix sn csr, ?_, ?_⟩
      · rintro (h0 | h0) <;>
          · rw [assocLookup_newRequest_rev]
            simp only [nextRevision, h0]
            rfl
      · intro r h0
        simp [assocLookup_newRequest_rev, nextRevision, h0]

/-- Witness for C1: scenario A (no prior revision, no requests) yields
a create whose revision annotation is "1". -/
theorem processItem_targets_next_revision_witness :
    assocLookup (newRequestFor certA "r" "s" [7, 105]).annotations revisionAnnKey
        = some (Nat.repr (nextRevision certA)) ∧
    ((certA.statusRevision = none ∨ certA.statusRevision = some 0) →
      assocLookup (newRequestFor certA "r" "s" [7, 105]).annotations
        revisionAnnKey = some "1") ∧
    (∀ r : Nat, certA.statusRevision = some r →
      assocLookup (newRequestFor certA "r" "s" [7, 105]).annotations
        revisionAnnKey = some (Nat.repr (r + 1))) :=
  processItem_targets_next_revision testEnv "r" stateA "n/c" "n" "c" "s"
    certA secretS 5 rfl rfl (by decide) rfl rfl rfl
    [Action.createRequest (newRequestFor certA "r" "s" [7, 105])]
    (newRequestFor certA "r" "s" [7, 105]) rfl (by simp)

/-- C4: for a Certificate with Issuing true, a valid key secret and no
prior revision, if exactly one owned CertificateRequest exists and its
revision annotation is the empty string, the pass issues exactly one
delete of that request followed by exactly one create of a request
annotated with revision "1". -/
theorem processItem_empty_revision_delete_and_recreate
    (env : CryptoEnv) (suffix : String) (s : ClusterState)
    (key ns nm sn : String) (crt : Certificate) (sec : Secret) (sk : Nat)
    (req0 : CertificateRequest) (csr : Bytes)
    (hkey : splitKey key = some (ns, nm))
    (hcrt : findCertificate s ns nm = some crt)
    (hiss : hasIssuingCondition crt = true)
    (hnext : crt.nextPrivateKeySecretName = some sn)
    (hsec : findSecret s crt.ns sn = some sec)
    (hdec : (assocLookup sec.data tlsPrivateKeyKey).bind env.decodePrivateKey
      = some sk)
    (hrev : crt.statusRevision = none ∨ crt.statusRevision = some 0)
    (howned : ownedRequests s crt = [req0])
    (hann : assocLookup req0.annotations revisionAnnKey = some "")
    (henc : env.encodeCSR crt.subject sk = some csr) :
    processItem env suffix s key =
      Except.ok [Action.deleteRequest req0.ns req0.name,
        Action.createRequest (newRequestFor crt suffix sn csr)] ∧
    assocLookup (newRequestFor crt suffix sn csr).annotations revisionAnnKey
      = some "1" := by
  have hp : parseRevisionString "" = none := rfl
  have hclass : classifyRequest env (certTarget env crt sn sk) req0
      = Classification.invalidRevision := by
    simp [classifyRequest, hann, hp]
  constructor
  · rw [processItem_open env suffix s key ns nm sn crt sec sk
      hkey hcrt hiss hnext hsec hdec, howned]
    simp [reconcileRequests, cleanupActions, hclass, henc, isValidClass,
      deletedByCleanup]
  · rw [assocLookup_newRequest_rev]
    rcases hrev with h0 | h0 <;>
      · simp only [nextRevision, h0]
        rfl

/-- Witness for C4: scenario B (one owned request with revision "")
produces exactly the delete of that request and a create at revision
"1". -/
theorem processItem_empty_revision_delete_and_recreate_witness :
    processItem testEnv "r" stateB "n/c" =
      Except.ok [Action.deleteRequest reqEmptyRev.ns reqEmptyRev.name,
        Action.createRequest (newRequestFor certA "r" "s" [7, 105])] ∧
    assocLookup (newRequestFor certA "r" "s" [7, 105]).annotations
      revisionAnnKey = some "1" :=
  processItem_empty_revision_delete_and_recreate testEnv "r" stateB
    "n/c" "n" "c" "s" certA secretS 5 reqEmptyRev [7, 105]
    rfl rfl (by decide) rfl rfl rfl (Or.inl rfl) rfl rfl rfl

/-- C9: in every successful pass the action list consists of delete
actions followed by at most one create: cleanup strictly precedes
synthesis. -/
theorem processItem_deletes_precede_create
    (env : CryptoEnv) (suffix : String) (s : ClusterState) (key : String)
    (as : List Action)
    (hrun : processItem env suffix s key = Except.ok as) :
    ∃ ds, (∀ a ∈ ds, ∃ n m, a = Action.deleteRequest n m) ∧
      (as = ds ∨ ∃ nr, as = ds ++ [Action.createRequest nr]) := by
  have hnil : ∀ h : Except.ok (ε := String) [] = Except.ok as,
      ∃ ds, (∀ a ∈ ds, ∃ n m, a = Action.deleteRequest n m) ∧
        (as = ds ∨ ∃ nr, as = ds ++ [Action.createRequest nr]) := by
    intro h
    injection h with h
    exact ⟨[], by simp, Or.inl h.symm⟩
  have hdel : ∀ (env : CryptoEnv) (t : MatchTarget)
      (owned : List CertificateRequest),
      ∀ a ∈ cleanupActions env t owned, ∃ n m, a = Action.deleteRequest n m := by
    intro env t owned a ha
    rcases mem_cleanupActions.1 ha with ⟨r, _, _, hEq⟩
    exact ⟨r.ns, r.name, hEq⟩
  unfold processItem at hrun
  split at hrun
  · exact hnil hrun
  · split at hrun
    · exact hnil hrun
    · split at hrun
      · split at hrun
        · exact hnil hrun
        · split at hrun
          · exact hnil hrun
          · split at hrun
            · exact hnil hrun
            · unfold reconcileRequests at hrun
              split at hrun
              · injection hrun with h
                exact ⟨_, hdel _ _ _, Or.inl h.symm⟩
              · split at hrun
                · exact Except.noConfusion hrun
                · injection hrun with h
                  exact ⟨_, hdel _ _ _, Or.inr ⟨_, h.symm⟩⟩
      · exact hnil hrun

/-- Witness for C9: the scenario-B pass, whose action list is one
delete followed by one create, has the delete-then-create shape. -/
theorem processItem_deletes_precede_create_witness :
    ∃ ds, (∀ a ∈ ds, ∃ n m, a = Action.deleteRequest n m) ∧
      ([Action.deleteRequest "n" "c0",
        Action.createRequest (newRequestFor certA "r" "s" [7, 105])] = ds ∨
       ∃ nr, [Action.deleteRequest "n" "c0",
         Action.createRequest (newRequestFor certA "r" "s" [7, 105])]
           = ds ++ [Action.createRequest nr]) :=
  processItem_deletes_precede_create testEnv "r" stateB "n/c"
    [Action.deleteRequest "n" "c0",
     Action.createRequest (newRequestFor certA "r" "s" [7, 105])] rfl

/-- A request classified as ignored wrong-revision never appears among
the cleanup deletes, provided request coordinates are unique in the
store. -/
lemma wrongRevision_not_in_cleanup
    (env : CryptoEnv) (t : MatchTarget) (s : ClusterState) (crt : Certificate)
    (hnod : (s.requests.map fun r => (r.ns, r.name)).Nodup)
    (req : CertificateRequest) (hreq : req ∈ ownedRequests s crt)
    (hclass : classifyRequest env t req = Classification.wrongRevision) :
    Action.deleteRequest req.ns req.name ∉
      cleanupActions env t (ownedRequests s crt) := by
  intro hmem
  rcases mem_cleanupActions.1 hmem with ⟨r', hr', hdel, hEq⟩
  injection hEq with h1 h2
  have hreqS : req ∈ s.requests := (mem_ownedRequests.1 hreq).1
  have hr'S : r' ∈ s.requests := (mem_ownedRequests.1 hr').1
  have heq : req = r' :=
    List.inj_on_of_nodup_map hnod hreqS hr'S (by simp [h1, h2])
  rw [← heq, hclass] at hdel
  simp [deletedByCleanup] at hdel

/-- C3 counterexample: the claim says a request whose revision
annotation is missing or non-numeric is never deleted, but the pass on
scenario B deletes the owned request whose revision annotation is the
unparseable empty string. -/
theorem wrong_revision_never_deleted_cex :
    reqEmptyRev ∈ ownedRequests stateB certA ∧
    parseRevisionString
      ((assocLookup reqEmptyRev.annotations revisionAnnKey).getD "") = none ∧
    processItem testEnv "r" stateB "n/c" =
      Except.ok [Action.deleteRequest "n" "c0",
        Action.createRequest (newRequestFor certA "r" "s" [7, 105])] ∧
    Action.deleteRequest reqEmptyRev.ns reqEmptyRev.name ∈
      [Action.deleteRequest "n" "c0",
       Action.createRequest (newRequestFor certA "r" "s" [7, 105])] :=
  ⟨by decide, rfl, rfl, by decide⟩

/-- C3 (amended): for every owned CertificateRequest whose revision
annotation parses to an integer different from the target revision,
the pass never deletes that request and never counts it as valid, so
its presence alone does not suppress creation; requests whose revision
annotation is missing or non-numeric are instead deleted. -/
theorem processItem_wrong_revision_requests_inert
    (env : CryptoEnv) (suffix : String) (s : ClusterState)
    (key ns nm sn : String) (crt : Certificate) (sec : Secret) (sk : Nat)
    (hkey : splitKey key = some (ns, nm))
    (hcrt : findCertificate s ns nm = some crt)
    (hiss : hasIssuingCondition crt = true)
    (hnext : crt.nextPrivateKeySecretName = some sn)
    (hsec : findSecret s crt.ns sn = some sec)
    (hdec : (assocLookup sec.data tlsPrivateKeyKey).bind env.decodePrivateKey
      = some sk)
    (hnod : (s.requests.map fun r => (r.ns, r.name)).Nodup)
    (as : List Action)
    (hrun : processItem env suffix s key = Except.ok as) :
    (∀ req ∈ ownedRequests s crt, ∀ v : Int,
      parseRevisionString
        ((assocLookup req.annotations revisionAnnKey).getD "") = some v →
      v ≠ (nextRevision crt : Int) →
      Action.deleteRequest req.ns req.name ∉ as ∧
      classifyRequest env (certTarget env crt sn sk) req
        ≠ Classification.valid) ∧
    ((∀ req ∈ ownedRequests s crt,
        classifyRequest env (certTarget env crt sn sk) req
          = Classification.wrongRevision) →
      ∃ nr, as = [Action.createRequest nr]) := by
  have hcls : ∀ req, ∀ v : Int,
      parseRevisionString
        ((assocLookup req.annotations revisionAnnKey).getD "") = some v →
      v ≠ (nextRevision crt : Int) →
      classifyRequest env (certTarget env crt sn sk) req
        = Classification.wrongRevision := by
    intro req v hpar hv
    simp [classifyRequest, hpar, certTarget, hv]
  rw [processItem_open env suffix s key ns nm sn crt sec sk
    hkey hcrt hiss hnext hsec hdec] at hrun
  unfold reconcileRequests at hrun
  split at hrun
  · next hany =>
    injection hrun with h
    subst h
    refine ⟨?_, ?_⟩
    · intro req hreq v hpar hv
      have hclass := hcls req v hpar hv
      refine ⟨wrongRevision_not_in_cleanup env _ s crt hnod req hreq hclass, ?_⟩
      rw [hclass]
      simp
    · intro hall
      exfalso
      rcases List.any_eq_true.1 hany with ⟨r, hr, hval⟩
      rw [hall r hr] at hval
      simp [isValidClass] at hval
  · next hany =>
    split at hrun
    · exact Except.noConfusion hrun
    · next csr henc =>
      injection hrun with h
      subst h
      refine ⟨?_, ?_⟩
      · intro req hreq v hpar hv
        have hclass := hcls req v hpar hv
        constructor
        · intro hmem
          rcases List.mem_append.1 hmem with hm | hm
          · exact wrongRevision_not_in_cleanup env _ s crt hnod req hreq
              hclass hm
          · have := List.mem_singleton.1 hm
            exact Action.noConfusion this
        · rw [hclass]
          simp
      · intro hall
        have hclean : cleanupActions env (certTarget env crt sn sk)
            (ownedRequests s crt) = [] := by
          unfold cleanupActions
          have hfil : (ownedRequests s crt).filter
              (fun r => deletedByCleanup
                (classifyRequest env (certTarget env crt sn sk) r)) = [] := by
            refine List.filter_eq_nil_iff.2 fun a ha => ?_
            rw [hall a ha]
            simp [deletedByCleanup]
          rw [hfil]
          rfl
        exact ⟨_, by rw [hclean]; rfl⟩

/-- Witness for C3: with two owned requests at revisions 3 and 4 and
target revision 1, neither is deleted and a fresh request is still
created. -/
theorem processItem_wrong_revision_requests_inert_witness :
    (∀ req ∈ ownedRequests stateWrongRev certA, ∀ v : Int,
      parseRevisionString
        ((assocLookup req.annotations revisionAnnKey).getD "") = some v →
      v ≠ (nextRevision certA : Int) →
      Action.deleteRequest req.ns req.name ∉
        [Action.createRequest (newRequestFor certA "r" "s" [7, 105])] ∧
      classifyRequest testEnv (certTarget testEnv certA "s" 5) req
        ≠ Classification.valid) ∧
    ((∀ req ∈ ownedRequests stateWrongRev certA,
        classifyRequest testEnv (certTarget testEnv certA "s" 5) req
          = Classification.wrongRevision) →
      ∃ nr, [Action.createRequest (newRequestFor certA "r" "s" [7, 105])]
        = [Action.createRequest nr]) :=
  processItem_wrong_revision_requests_inert testEnv "r" stateWrongRev
    "n/c" "n" "c" "s" certA secretS 5 rfl rfl (by decide) rfl rfl rfl
    (by decide)
    [Action.createRequest (newRequestFor certA "r" "s" [7, 105])] rfl

/-- A classification is counted valid exactly when it is the valid
class. -/
lemma isValidClass_eq_true {c : Classification} :
    isValidClass c = true ↔ c = Classification.valid := by
  cases c <;> simp [isValidClass]

/-- C5 counterexample: the claim says a key-mismatched request at the
target revision is deleted and a replacement is created in the same
pass, but when a Valid request for the target revision also exists the
pass deletes the mismatched request without creating anything. -/
theorem key_mismatch_always_recreates_cex :
    classifyRequest testEnv (certTarget testEnv cert5 "s" 5) reqBad
      = Classification.keyMismatch ∧
    reqBad ∈ ownedRequests state56 cert5 ∧
    processItem testEnv "r" state56 "n/c" =
      Except.ok [Action.deleteRequest "n" "bad"] ∧
    ∀ a ∈ [Action.deleteRequest "n" "bad"], a.isCreate = false :=
  ⟨rfl, by decide, rfl, by decide⟩

/-- C5 (amended): every owned request at the target revision with the
correct key-secret name whose CSR public key differs from the current
one is deleted by the pass; and when no owned request is Valid, the
same pass also creates a replacement at the same target revision. -/
theorem processItem_key_mismatch_delete_recreate
    (env : CryptoEnv) (suffix : String) (s : ClusterState)
    (key ns nm sn : String) (crt : Certificate) (sec : Secret) (sk : Nat)
    (req : CertificateRequest) (subj : Subject) (pub : Nat)
    (hkey : splitKey key = some (ns, nm))
    (hcrt : findCertificate s ns nm = some crt)
    (hiss : hasIssuingCondition crt = true)
    (hnext : crt.nextPrivateKeySecretName = some sn)
    (hsec : findSecret s crt.ns sn = some sec)
    (hdec : (assocLookup sec.data tlsPrivateKeyKey).bind env.decodePrivateKey
      = some sk)
    (hreq : req ∈ ownedRequests s crt)
    (hpar : parseRevisionString
      ((assocLookup req.annotations revisionAnnKey).getD "")
        = some (nextRevision crt : Int))
    (hkeyann : assocLookup req.annotations pkSecretNameAnnKey = some sn)
    (hcsr : env.parseCSR req.csr = some (subj, pub))
    (hpub : pub ≠ env.publicKeyOf sk)
    (as : List Action)
    (hrun : processItem env suffix s key = Except.ok as) :
    Action.deleteRequest req.ns req.name ∈ as ∧
    ((∀ q ∈ ownedRequests s crt,
        classifyRequest env (certTarget env crt sn sk) q
          ≠ Classification.valid) →
      ∃ nr, Action.createRequest nr ∈ as ∧
        assocLookup nr.annotations revisionAnnKey
          = some (Nat.repr (nextRevision crt))) := by
  have hclass : classifyRequest env (certTarget env crt sn sk) req
      = Classification.keyMismatch := by
    simp [classifyRequest, hpar, certTarget, hkeyann, hcsr, hpub]
  have hdel : Action.deleteRequest req.ns req.name ∈
      cleanupActions env (certTarget env crt sn sk) (ownedRequests s crt) :=
    mem_cleanupActions.2 ⟨req, hreq, by rw [hclass]; rfl, rfl⟩
  rw [processItem_open env suffix s key ns nm sn crt sec sk
    hkey hcrt hiss hnext hsec hdec] at hrun
  unfold reconcileRequests at hrun
  split at hrun
  · next hany =>
    injection hrun with h
    subst h
    refine ⟨hdel, ?_⟩
    intro hnoval
    exfalso
    rcases List.any_eq_true.1 hany with ⟨q, hq, hval⟩
    exact hnoval q hq (isValidClass_eq_true.1 hval)
  · next hany =>
    split at hrun
    · exact Except.noConfusion hrun
    · next csr henc =>
      injection hrun with h
      subst h
      refine ⟨List.mem_append.2 (Or.inl hdel), fun _ => ?_⟩
      exact ⟨newRequestFor crt suffix sn csr,
        List.mem_append.2 (Or.inr (by simp)),
        assocLookup_newRequest_rev crt suffix sn csr⟩

/-- Witness for C5: a lone key-mismatched request at target revision 6
is deleted and a replacement at revision "6" is created. -/
theorem processItem_key_mismatch_delete_recreate_witness :
    Action.deleteRequest reqBad.ns reqBad.name ∈
      [Action.deleteRequest "n" "bad",
       Action.createRequest (newRequestFor cert5 "r" "s" [7, 105])] ∧
    ((∀ q ∈ ownedRequests state5Bad cert5,
        classifyRequest testEnv (certTarget testEnv cert5 "s" 5) q
          ≠ Classification.valid) →
      ∃ nr, Action.createRequest nr ∈
          [Action.deleteRequest "n" "bad",
           Action.createRequest (newRequestFor cert5 "r" "s" [7, 105])] ∧
        assocLookup nr.annotations revisionAnnKey
          = some (Nat.repr (nextRevision cert5))) :=
  processItem_key_mismatch_delete_recreate testEnv "r" state5Bad
    "n/c" "n" "c" "s" cert5 secretS 5 reqBad subjTest 999
    rfl rfl (by decide) rfl rfl rfl (by decide) rfl rfl rfl (by decide)
    [Action.deleteRequest "n" "bad",
     Action.createRequest (newRequestFor cert5 "r" "s" [7, 105])] rfl

/-- C6 counterexample: the claim says that when a Valid request for
the target revision remains after cleanup the pass performs no
mutation, but when an invalid request coexists with a Valid one the
pass still deletes the invalid request. -/
theorem valid_exists_no_mutation_cex :
    (∃ q ∈ ownedRequests state56 cert5,
      classifyRequest testEnv (certTarget testEnv cert5 "s" 5) q
        = Classification.valid) ∧
    processItem testEnv "r" state56 "n/c" =
      Except.ok [Action.deleteRequest "n" "bad"] ∧
    [Action.deleteRequest "n" "bad"] ≠ ([] : List Action) :=
  ⟨⟨reqGood, by decide, rfl⟩, rfl, by decide⟩

/-- C6 (amended): when at least one owned request classifies Valid for
the target revision — including when two or more Valid requests
coexist — the pass creates nothing; its only possible mutations are
cleanup deletes of invalid requests, so when every owned request is
Valid the pass performs no action at all. -/
theorem processItem_valid_exists_no_create
    (env : CryptoEnv) (suffix : String) (s : ClusterState)
    (key ns nm sn : String) (crt : Certificate) (sec : Secret) (sk : Nat)
    (hkey : splitKey key = some (ns, nm))
    (hcrt : findCertificate s ns nm = some crt)
    (hiss : hasIssuingCondition crt = true)
    (hnext : crt.nextPrivateKeySecretName = some sn)
    (hsec : findSecret s crt.ns sn = some sec)
    (hdec : (assocLookup sec.data tlsPrivateKeyKey).bind env.decodePrivateKey
      = some sk)
    (hvalid : ∃ q ∈ ownedRequests s crt,
      classifyRequest env (certTarget env crt sn sk) q = Classification.valid)
    (as : List Action)
    (hrun : processItem env suffix s key = Except.ok as) :
    (∀ nr, Action.createRequest nr ∉ as) ∧
    ((∀ q ∈ ownedRequests s crt,
        classifyRequest env (certTarget env crt sn sk) q
          = Classification.valid) →
      as = []) := by
  have hany : ((ownedRequests s crt).any fun r =>
      isValidClass (classifyRequest env (certTarget env crt sn sk) r)) = true := by
    rcases hvalid with ⟨q, hq, hcl⟩
    exact List.any_eq_true.2 ⟨q, hq, by rw [hcl]; rfl⟩
  rw [processItem_open env suffix s key ns nm sn crt sec sk
    hkey hcrt hiss hnext hsec hdec] at hrun
  unfold reconcileRequests at hrun
  rw [hany] at hrun
  simp only [if_true] at hrun
  injection hrun with h
  subst h
  refine ⟨?_, ?_⟩
  · intro nr hmem
    rcases mem_cleanupActions.1 hmem with ⟨r, _, _, hEq⟩
    exact Action.noConfusion hEq
  · intro hall
    unfold cleanupActions
    have hfil : (ownedRequests s crt).filter
        (fun r => deletedByCleanup
          (classifyRequest env (certTarget env crt sn sk) r)) = [] := by
      refine List.filter_eq_nil_iff.2 fun a ha => ?_
      rw [hall a ha]
      simp [deletedByCleanup]
    rw [hfil]
    rfl

/-- Witness for C6: scenario D — two Valid requests for the same
target revision — produces no action at all. -/
theorem processItem_valid_exists_no_create_witness :
    (∀ nr, Action.createRequest nr ∉ ([] : List Action)) ∧
    ((∀ q ∈ ownedRequests state5DoubleGood cert5,
        classifyRequest testEnv (certTarget testEnv cert5 "s" 5) q
          = Classification.valid) →
      ([] : List Action) = []) :=
  processItem_valid_exists_no_create testEnv "r" state5DoubleGood
    "n/c" "n" "c" "s" cert5 secretS 5 rfl rfl (by decide) rfl rfl rfl
    ⟨reqGood, by decide, rfl⟩ [] rfl

/-- Actions never change the certificates of the store. -/
lemma applyAction_certificates (s : ClusterState) (a : Action) :
    (applyAction s a).certificates = s.certificates := by
  cases a <;> rfl

/-- Actions never change the secrets of the store. -/
lemma applyAction_secrets (s : ClusterState) (a : Action) :
    (applyAction s a).secrets = s.secrets := by
  cases a <;> rfl

/-- Action lists never change the certificates of the store. -/
lemma applyActions_certificates (l : List Action) (s : ClusterState) :
    (applyActions s l).certificates = s.certificates := by
  induction l generalizing s with
  | nil => rfl
  | cons a l ih =>
    show (applyActions (applyAction s a) l).certificates = s.certificates
    rw [ih (applyAction s a), applyAction_certificates]

/-- Action lists never change the secrets of the store. -/
lemma applyActions_secrets (l : List Action) (s : ClusterState) :
    (applyActions s l).secrets = s.secrets := by
  induction l generalizing s with
  | nil => rfl
  | cons a l ih =>
    show (applyActions (applyAction s a) l).secrets = s.secrets
    rw [ih (applyAction s a), applyAction_secrets]

/-- Requests surviving a list of deletes are exactly those not named
by any deleted request. -/
lemma mem_applyDeletes (l : List CertificateRequest) (s : ClusterState)
    (q : CertificateRequest) :
    q ∈ (applyActions s
        (l.map fun r => Action.deleteRequest r.ns r.name)).requests ↔
      q ∈ s.requests ∧ ∀ r ∈ l, ¬(q.ns = r.ns ∧ q.name = r.name) := by
  induction l generalizing s with
  | nil => simp [applyActions]
  | cons r l ih =>
    simp only [List.map_cons]
    show q ∈ (applyActions
      (applyAction s (Action.deleteRequest r.ns r.name))
      (l.map fun r => Action.deleteRequest r.ns r.name)).requests ↔ _
    rw [ih]
    simp only [applyAction, List.mem_filter, Bool.not_eq_true',
      decide_eq_false_iff_not, List.forall_mem_cons]
    tauto

/-- C7: the reconciler is idempotent on converged Certificates: when a
Valid request for the target revision exists, applying one pass's
actions and running the pass again yields zero creates and zero
deletes, so the state after two passes equals the state after one
(assuming unique request coordinates in the store). -/
theorem processItem_idempotent_when_converged
    (env : CryptoEnv) (suffix : String) (s : ClusterState)
    (key ns nm sn : String) (crt : Certificate) (sec : Secret) (sk : Nat)
    (hkey : splitKey key = some (ns, nm))
    (hcrt : findCertificate s ns nm = some crt)
    (hiss : hasIssuingCondition crt = true)
    (hnext : crt.nextPrivateKeySecretName = some sn)
    (hsec : findSecret s crt.ns sn = some sec)
    (hdec : (assocLookup sec.data tlsPrivateKeyKey).bind env.decodePrivateKey
      = some sk)
    (hnod : (s.requests.map fun r => (r.ns, r.name)).Nodup)
    (v : CertificateRequest) (hv : v ∈ ownedRequests s crt)
    (hvalid : classifyRequest env (certTarget env crt sn sk) v
      = Classification.valid)
    (as1 : List Action)
    (hrun1 : processItem env suffix s key = Except.ok as1) :
    processItem env suffix (applyActions s as1) key = Except.ok [] ∧
    applyActions (applyActions s as1) [] = applyActions s as1 := by
  have hany : ((ownedRequests s crt).any fun r =>
      isValidClass (classifyRequest env (certTarget env crt sn sk) r))
        = true :=
    List.any_eq_true.2 ⟨v, hv, by rw [hvalid]; rfl⟩
  rw [processItem_open env suffix s key ns nm sn crt sec sk
    hkey hcrt hiss hnext hsec hdec] at hrun1
  unfold reconcileRequests at hrun1
  rw [hany] at hrun1
  simp only [if_true] at hrun1
  injection hrun1 with h1
  subst h1
  unfold cleanupActions
  refine ⟨?_, rfl⟩
  have hcrt1 : findCertificate
      (applyActions s ((( ownedRequests s crt).filter fun r =>
        deletedByCleanup
          (classifyRequest env (certTarget env crt sn sk) r)).map
            fun r => Action.deleteRequest r.ns r.name)) ns nm = some crt := by
    unfold findCertificate
    rw [applyActions_certificates]
    exact hcrt
  have hsec1 : findSecret
      (applyActions s ((( ownedRequests s crt).filter fun r =>
        deletedByCleanup
          (classifyRequest env (certTarget env crt sn sk) r)).map
            fun r => Action.deleteRequest r.ns r.name)) crt.ns sn = some sec := by
    unfold findSecret
    rw [applyActions_secrets]
    exact hsec
  rw [processItem_open env suffix _ key ns nm sn crt sec sk
    hkey hcrt1 hiss hnext hsec1 hdec]
  have howned1 : ∀ q, q ∈ ownedRequests
      (applyActions s ((( ownedRequests s crt).filter fun r =>
        deletedByCleanup
          (classifyRequest env (certTarget env crt sn sk) r)).map
            fun r => Action.deleteRequest r.ns r.name)) crt ↔
      q ∈ ownedRequests s crt ∧
      ∀ r ∈ (ownedRequests s crt).filter (fun r =>
          deletedByCleanup (classifyRequest env (certTarget env crt sn sk) r)),
        ¬(q.ns = r.ns ∧ q.name = r.name) := by
    intro q
    rw [mem_ownedRequests, mem_applyDeletes, mem_ownedRequests]
    tauto
  have hv1 : v ∈ ownedRequests
      (applyActions s ((( ownedRequests s crt).filter fun r =>
        deletedByCleanup
          (classifyRequest env (certTarget env crt sn sk) r)).map
            fun r => Action.deleteRequest r.ns r.name)) crt := by
    refine (howned1 v).2 ⟨hv, ?_⟩
    rintro r hrL ⟨h1, h2⟩
    have hr := List.mem_filter.1 hrL
    have hvS : v ∈ s.requests := (mem_ownedRequests.1 hv).1
    have hrS : r ∈ s.requests := (mem_ownedRequests.1 hr.1).1
    have heq : v = r :=
      List.inj_on_of_nodup_map hnod hvS hrS (by simp [h1, h2])
    have hrdel := hr.2
    rw [← heq, hvalid] at hrdel
    simp [deletedByCleanup] at hrdel
  have hclean1 : ∀ q ∈ ownedRequests
      (applyActions s ((( ownedRequests s crt).filter fun r =>
        deletedByCleanup
          (classifyRequest env (certTarget env crt sn sk) r)).map
            fun r => Action.deleteRequest r.ns r.name)) crt,
      deletedByCleanup (classifyRequest env (certTarget env crt sn sk) q)
        = false := by
    intro q hq
    rcases (howned1 q).1 hq with ⟨hqo, hqsurv⟩
    cases hd : deletedByCleanup (classifyRequest env (certTarget env crt sn sk) q)
    · rfl
    · exact absurd ⟨rfl, rfl⟩ (hqsurv q (List.mem_filter.2 ⟨hqo, hd⟩))
  have hany1 : ((ownedRequests
      (applyActions s ((( ownedRequests s crt).filter fun r =>
        deletedByCleanup
          (classifyRequest env (certTarget env crt sn sk) r)).map
            fun r => Action.deleteRequest r.ns r.name)) crt).any fun r =>
      isValidClass (classifyRequest env (certTarget env crt sn sk) r))
        = true :=
    List.any_eq_true.2 ⟨v, hv1, by rw [hvalid]; rfl⟩
  have hfil1 : (ownedRequests
      (applyActions s ((( ownedRequests s crt).filter fun r =>
        deletedByCleanup
          (classifyRequest env (certTarget env crt sn sk) r)).map
            fun r => Action.deleteRequest r.ns r.name)) crt).filter
      (fun r => deletedByCleanup
        (classifyRequest env (certTarget env crt sn sk) r)) = [] :=
    List.filter_eq_nil_iff.2 fun a ha => by rw [hclean1 a ha]; simp
  simp [reconcileRequests, hany1, cleanupActions, hfil1]

/-- Witness for C7: a converged Certificate (one Valid and one
key-mismatched request) reaches a state on which the second pass does
nothing. -/
theorem processItem_idempotent_when_converged_witness :
    processItem testEnv "r"
      (applyActions state56 [Action.deleteRequest "n" "bad"]) "n/c"
        = Except.ok [] ∧
    applyActions (applyActions state56 [Action.deleteRequest "n" "bad"]) []
      = applyActions state56 [Action.deleteRequest "n" "bad"] :=
  processItem_idempotent_when_converged testEnv "r" state56
    "n/c" "n" "c" "s" cert5 secretS 5 rfl rfl (by decide) rfl rfl rfl
    (by decide) reqGood (by decide) rfl
    [Action.deleteRequest "n" "bad"] rfl

/-! The X509Subject conversion wrapper of
pkg/internal/apis/certmanager/v1beta1 (src/unnamed/part_000). -/

/-- The X509Subject fields shared by the internal certmanager type and
the v1beta1 type the wrapper converts between. -/
structure X509Subject where
  organizations : List String
  countries : List String
  organizationalUnits : List String
  localities : List String
  provinces : List String
  streetAddresses : List String
  postalCodes : List String
  serialNumber : String
deriving DecidableEq, Repr

/-- Opaque conversion context (k8s.io/apimachinery conversion.Scope);
the wrapper only forwards it. -/
structure ConversionScope where
  flags : Nat
deriving DecidableEq, Repr

/-- A Go conversion function: given the input value, the current
output value and the scope, it produces the updated output value and
an optional error string. -/
abbrev ConversionFn :=
  X509Subject → X509Subject → ConversionScope → X509Subject × Option String

/-- The exported wrapper from src/unnamed/part_000, line 26: it calls
the generated autoConvert function on its three arguments and returns
its result unchanged.  The generated function's body is not part of
the sources, so it is taken as a parameter. -/
def Convert_certmanager_X509Subject_To_v1beta1_X509Subject
    (autoConvert : ConversionFn) (inp outp : X509Subject)
    (s : ConversionScope) : X509Subject × Option String :=
  autoConvert inp outp s

/-- C10: for every input pair of X509Subject values and conversion
scope, the exported conversion function produces exactly the same
output state and return value as the generated autoConvert function it
delegates to, whatever that function computes. -/
theorem convert_x509subject_delegates
    (autoConvert : ConversionFn) (inp outp : X509Subject)
    (s : ConversionScope) :
    Convert_certmanager_X509Subject_To_v1beta1_X509Subject
        autoConvert inp outp s = autoConvert inp outp s :=
  rfl

end CertManager
